import Mathlib

/-!
Shallow embedding of the core capture-to-OCR pipeline of `wf_overlay`
(src/cap.rs, src/config.rs, src/ocr.rs), with theorems checking the
natural-language specification against the code.

Modelling conventions:
* `f32` values (coordinates, colors, tolerances) are modelled as `ℚ`.
* `u32` values are modelled as `Nat`; the arithmetic in the claims stays far
  below `2^32`, where Rust `u32` arithmetic agrees with `Nat` arithmetic
  (Rust overflow is a panic in debug builds, not wrap-around semantics the
  program relies on).
* Fallible operations return `Option`/`Except`.
-/

namespace WfOverlay

/-! ### Geometry: bevy `Vec2`, `Aabb2d`, `UVec2`, `URect` -/

/-- Model of bevy `Vec2` (two `f32` components, modelled as `ℚ`). -/
structure Vec2 where
  x : ℚ
  y : ℚ
deriving DecidableEq, Repr

/-- Model of bevy `Aabb2d`: an axis-aligned box with `min`/`max` corners. -/
structure Aabb2d where
  min : Vec2
  max : Vec2
deriving DecidableEq, Repr

/-- bevy `Aabb2d::center`: midpoint of `min` and `max`. -/
def Aabb2d.center (a : Aabb2d) : Vec2 :=
  ⟨(a.min.x + a.max.x) / 2, (a.min.y + a.max.y) / 2⟩

/-- bevy `Aabb2d::merge`: componentwise min of mins and max of maxes. -/
def Aabb2d.merge (a b : Aabb2d) : Aabb2d :=
  ⟨⟨Min.min a.min.x b.min.x, Min.min a.min.y b.min.y⟩,
   ⟨Max.max a.max.x b.max.x, Max.max a.max.y b.max.y⟩⟩

/-- Model of bevy `UVec2` (`u32` pair). -/
structure UVec2 where
  x : Nat
  y : Nat
deriving DecidableEq, Repr

/-- Model of bevy `URect` (a `u32` rectangle given by `min`/`max` corners). -/
structure URect where
  min : UVec2
  max : UVec2
deriving DecidableEq, Repr

/-! ### `ocr.rs`: `Word`, `Item`, `detect_columns` -/

/-- `ocr.rs` `Word`: recognized text plus its bounding box. -/
structure Word where
  text : String
  bounds : Aabb2d
deriving DecidableEq, Repr

/-- `ocr.rs` `Item`: a clustered column of words. -/
structure Item where
  name : String
  bounds : Aabb2d
deriving DecidableEq, Repr

/-- The stable ascending sort by `bounds.min.x` performed by
`sorted.sort_by(|a, b| a.bounds.min.x.partial_cmp(&b.bounds.min.x).unwrap())`.
Rust's `sort_by` is a stable sort; `List.insertionSort` is a stable sort for
the same total preorder, hence produces the same list. -/
def sortByMinX (words : List Word) : List Word :=
  words.insertionSort (fun a b => a.bounds.min.x ≤ b.bounds.min.x)

/-- The boundary pass of `detect_columns` (ocr.rs:121-127): for every adjacent
pair of the sorted list whose gap `next.min.x - cur.max.x` exceeds
`gap_threshold`, the midpoint `(cur.max.x + next.min.x) / 2`. -/
def columnBoundaries (sorted : List Word) (gap_threshold : ℚ) : List ℚ :=
  (sorted.zip sorted.tail).filterMap fun p =>
    if p.2.bounds.min.x - p.1.bounds.max.x > gap_threshold then
      some ((p.1.bounds.max.x + p.2.bounds.min.x) / 2)
    else
      none

/-- The column index of a word (ocr.rs:132-133): the number of boundaries `b`
with `center.x > b`. -/
def columnIndex (boundaries : List ℚ) (w : Word) : Nat :=
  (boundaries.filter fun b => (Aabb2d.center w.bounds).x > b).length

/-- `ocr.rs` `detect_columns` (lines 111-159). The push loop
`columns[col_idx].push(word.clone())` over `words` in input order is modelled
by filtering `words` (input order preserved) per column index. -/
def detect_columns (words : List Word) (gap_threshold : ℚ) : List Item :=
  if words.isEmpty then [] else
  let sorted := sortByMinX words
  let boundaries := columnBoundaries sorted gap_threshold
  let columns := (List.range (boundaries.length + 1)).map fun j =>
    words.filter fun w => columnIndex boundaries w = j
  columns.filterMap fun col =>
    match col with
    | [] => none
    | c0 :: rest =>
      some { name := String.intercalate " " ((c0 :: rest).map fun w => w.text),
             bounds := rest.foldl (fun acc w => acc.merge w.bounds) c0.bounds }

/-- Spec-side clusterer, written from the specification wording
(spec §4.6 / claim C3): sort words ascending by left-x; record a boundary at
the midpoint of every adjacent gap (next.left minus current.right) strictly
greater than `gap_threshold`; assign each word to the column indexed by the
count of boundaries strictly left of its horizontal center; each non-empty
column yields one `Item` whose name joins the word texts with single spaces in
original input order and whose bounds is the iterated merge of the column's
word boxes; items are emitted in ascending column order; empty columns yield
no `Item`. -/
def cluster_spec (words : List Word) (gap_threshold : ℚ) : List Item :=
  if words.isEmpty then [] else
  let sorted := words.insertionSort (fun a b => a.bounds.min.x ≤ b.bounds.min.x)
  let boundaries : List ℚ := (sorted.zip sorted.tail).filterMap fun p =>
    if p.2.bounds.min.x - p.1.bounds.max.x > gap_threshold then
      some ((p.1.bounds.max.x + p.2.bounds.min.x) / 2)
    else
      none
  let colIdx : Word → Nat := fun w =>
    (boundaries.filter fun b => b < (Aabb2d.center w.bounds).x).length
  (List.range (boundaries.length + 1)).filterMap fun j =>
    match words.filter fun w => colIdx w = j with
    | [] => none
    | c0 :: rest =>
      some { name := String.intercalate " " ((c0 :: rest).map fun w => w.text),
             bounds := rest.foldl (fun acc w => acc.merge w.bounds) c0.bounds }

/-! ### `cap.rs`: pixel format conversion and the latest-image resource -/

/-- Byte `i` (little-endian position) of a 32-bit word. -/
def byte32 (x i : Nat) : Nat := x / 2 ^ (8 * i) % 256

/-- `u32::from_be_bytes([b0,b1,b2,b3])`. -/
def u32_from_be_bytes (b0 b1 b2 b3 : Nat) : Nat :=
  ((b0 * 256 + b1) * 256 + b2) * 256 + b3

/-- `u32::swap_bytes`: reverse the byte order of a 32-bit word. -/
def u32_swap_bytes (x : Nat) : Nat :=
  byte32 x 0 * 2 ^ 24 + byte32 x 1 * 2 ^ 16 + byte32 x 2 * 2 ^ 8 + byte32 x 3

/-- `u32::rotate_left(8)`: the shifted-out high byte re-enters at the bottom.
For `x < 2^32` the two summands occupy disjoint bit ranges, so `+` is the
bitwise or of `x << 8 (mod 2^32)` and `x >> 24`. -/
def u32_rotate_left8 (x : Nat) : Nat :=
  x % 2 ^ 32 * 2 ^ 8 % 2 ^ 32 + x % 2 ^ 32 / 2 ^ 24

/-- `u32::to_be_bytes`. -/
def u32_to_be_bytes (x : Nat) : List Nat :=
  [byte32 x 3, byte32 x 2, byte32 x 1, byte32 x 0]

/-- The per-pixel body of `from_raw_bgra` (cap.rs:365-369): interpret the 4
bytes as a big-endian 32-bit word, byte-swap, rotate left by 8, re-emit
big-endian. -/
def bgraChunkToRgba (b0 b1 b2 b3 : Nat) : List Nat :=
  u32_to_be_bytes (u32_rotate_left8 (u32_swap_bytes (u32_from_be_bytes b0 b1 b2 b3)))

/-- `img.as_chunks_mut::<4>()` followed by the per-chunk rewrite: every
complete 4-byte chunk is rewritten, a trailing remainder is left unchanged. -/
def mapChunks4 : List Nat → List Nat
  | b0 :: b1 :: b2 :: b3 :: rest => bgraChunkToRgba b0 b1 b2 b3 ++ mapChunks4 rest
  | rest => rest

/-- Model of `image::RgbaImage`: dimensions plus the flat RGBA byte buffer
(row-major, 4 bytes per pixel). -/
structure RgbaImage where
  width : Nat
  height : Nat
  data : List Nat
deriving DecidableEq, Repr

/-- `RgbaImage::from_raw`: `Some` iff the buffer is big enough
(`width*height*4 <= len`, per `ImageBuffer::check_image_fits`). -/
def rgbaImageFromRaw (width height : Nat) (container : List Nat) : Option RgbaImage :=
  if width * height * 4 ≤ container.length then
    some ⟨width, height, container⟩
  else
    none

/-- `cap.rs` `from_raw_bgra` (lines 360-373): build the image buffer, then
rewrite every 4-byte chunk in place. -/
def from_raw_bgra (width height : Nat) (container : List Nat) : Option RgbaImage :=
  (rgbaImageFromRaw width height container).map fun img =>
    { img with data := mapChunks4 img.data }

/-- Spec-side per-pixel map (claim C5): bytes `[B,G,R,A]` become `[R,G,B,A]`,
applied across the buffer. -/
def bgraSpecMap : List Nat → List Nat
  | b :: g :: r :: a :: rest => r :: g :: b :: a :: bgraSpecMap rest
  | rest => rest

/-- `cap.rs` `VideoFormat`. -/
inductive VideoFormat
  | Bgra
  | Rgba
  | BGRx
  | RGBx
  | Other (name : String)
deriving DecidableEq, Repr

/-- `cap.rs` `ScreencastMeta`. -/
structure ScreencastMeta where
  width : Nat
  height : Nat
  format : VideoFormat
deriving DecidableEq, Repr

/-- `cap.rs` `LatestImage`: the frame byte buffer and the latest metadata. -/
structure LatestImage where
  bytes : List Nat
  meta : ScreencastMeta
deriving DecidableEq, Repr

/-- `LatestImage::get_latest_rgba` (cap.rs:384-400). Returns the conversion
result together with the updated resource state. `std::mem::take(&mut self.0)`
is modelled by emptying `bytes` in the state exactly on the arms that execute
it; the `Other` arm and the short-buffer early return leave the state
untouched. -/
def get_latest_rgba (s : LatestImage) : Option RgbaImage × LatestImage :=
  if s.bytes.length < 4 then (none, s)
  else
    match s.meta.format with
    | .Bgra | .BGRx =>
        (from_raw_bgra s.meta.width s.meta.height s.bytes, { s with bytes := [] })
    | .Rgba | .RGBx =>
        (rgbaImageFromRaw s.meta.width s.meta.height s.bytes, { s with bytes := [] })
    | .Other _ => (none, s)

/-! ### `cap.rs`: the single-slot frame channel -/

/-- `crossbeam_channel::bounded(1)` state: a queue of at most one value. -/
def tryRecv {α : Type} (q : List α) : Option α × List α :=
  match q with
  | [] => (none, [])
  | v :: rest => (some v, rest)

/-- The producer's drain loop `while rx.try_recv().is_ok() {}`
(cap.rs:270): receive until the channel reports empty. -/
def drainChannel {α : Type} : List α → List α
  | [] => []
  | _ :: rest => drainChannel rest

/-- The producer discipline of the `process` callback (cap.rs:268-271):
drain any pending value, then send the new one. After the drain the
capacity-one channel has room, so the send enqueues. -/
def publish {α : Type} (q : List α) (v : α) : List α :=
  drainChannel q ++ [v]

/-! ### `config.rs`: pixel checks, layout options, layout selection -/

/-- Model of bevy `Srgba` (four `f32` components, modelled as `ℚ`). -/
structure Srgba where
  red : ℚ
  green : ℚ
  blue : ℚ
  alpha : ℚ
deriving DecidableEq, Repr

/-- bevy `Srgba::from_u8_array`: each byte divided by 255. -/
def Srgba.from_u8_array (r g b a : Nat) : Srgba :=
  ⟨(r : ℚ) / 255, (g : ℚ) / 255, (b : ℚ) / 255, (a : ℚ) / 255⟩

/-- bevy `EuclideanDistance::distance_squared` for `Srgba`: squared distance
over the red/green/blue components (alpha is not part of the color
distance). -/
def Srgba.distance_squared (c p : Srgba) : ℚ :=
  (c.red - p.red) ^ 2 + (c.green - p.green) ^ 2 + (c.blue - p.blue) ^ 2

/-- `config.rs` `PixelCheck`. -/
structure PixelCheck where
  x : Nat
  y : Nat
  color : Srgba
  tolerance : ℚ
deriving DecidableEq, Repr

/-- `PixelCheck::matches_pixel` (config.rs:41-49): exact equality when
`tolerance == 0`, otherwise `distance <= tolerance`. The square-root-free
condition `0 ≤ t ∧ d² ≤ t²` is equivalent to `sqrt d² ≤ t` since the
Euclidean distance is nonnegative. -/
def PixelCheck.matches_pixel (c : PixelCheck) (pixel : Srgba) : Bool :=
  if c.tolerance = 0 then
    c.color = pixel
  else
    0 ≤ c.tolerance ∧ Srgba.distance_squared c.color pixel ≤ c.tolerance ^ 2

/-- `image.get_pixel(x, y).0`: the 4 bytes at flat offset `(y*width + x)*4`. -/
def RgbaImage.getPixel (img : RgbaImage) (x y : Nat) : Nat × Nat × Nat × Nat :=
  let i := (y * img.width + x) * 4
  (img.data.getD i 0, img.data.getD (i + 1) 0,
   img.data.getD (i + 2) 0, img.data.getD (i + 3) 0)

/-- `config.rs` `Layout` (lines 177-187). -/
structure Layout where
  offset : UVec2
  size : UVec2
  reference_resolution : UVec2
  theme_text_color : Srgba
  item_name_distance : Nat
deriving DecidableEq, Repr

/-- `config.rs` `LayoutOption` (lines 105-114). -/
structure LayoutOption where
  aspect_ratio : Nat × Nat
  pixel_checks : List PixelCheck
  config : Layout
deriving DecidableEq, Repr

/-- `LayoutOption::aspect_ratio_matches` (config.rs:117-119): integer
cross-multiplication. -/
def LayoutOption.aspect_ratio_matches (o : LayoutOption) (img_width img_height : Nat) : Bool :=
  o.aspect_ratio.1 * img_height = o.aspect_ratio.2 * img_width

/-- `LayoutOption::verify_pixel_checks` (config.rs:121-134): every check must
pass; an out-of-bounds coordinate makes that check fail. -/
def LayoutOption.verify_pixel_checks (o : LayoutOption) (image : RgbaImage) : Bool :=
  o.pixel_checks.all fun check =>
    if check.x ≥ image.width ∨ check.y ≥ image.height then
      false
    else
      let p := image.getPixel check.x check.y
      check.matches_pixel (Srgba.from_u8_array p.1 p.2.1 p.2.2.1 p.2.2.2)

/-- `LayoutOption::matches` (config.rs:136-139). -/
def LayoutOption.matches (o : LayoutOption) (image : RgbaImage) : Bool :=
  o.aspect_ratio_matches image.width image.height && o.verify_pixel_checks image

/-- `Config::find_matching_layout` (config.rs:235-240): first matching
option's layout, in configured order. -/
def find_matching_layout (layouts : List LayoutOption) (image : RgbaImage) : Option Layout :=
  (layouts.find? fun variant => variant.matches image).map fun variant => variant.config

/-- Spec-side match predicate, written from the specification wording
(spec §3 / claim C4): exact integer cross-multiplication on the aspect ratio,
and every pixel check in bounds with its sampled color exactly equal when
tolerance is 0 and within Euclidean distance `tolerance` otherwise
(square-root-free form). -/
def matchesSpec (o : LayoutOption) (image : RgbaImage) : Prop :=
  o.aspect_ratio.1 * image.height = o.aspect_ratio.2 * image.width ∧
  ∀ check ∈ o.pixel_checks,
    check.x < image.width ∧ check.y < image.height ∧
    (let p := image.getPixel check.x check.y
     let sampled := Srgba.from_u8_array p.1 p.2.1 p.2.2.1 p.2.2.2
     if check.tolerance = 0 then check.color = sampled
     else 0 ≤ check.tolerance ∧
       Srgba.distance_squared check.color sampled ≤ check.tolerance ^ 2)

instance (o : LayoutOption) (image : RgbaImage) : Decidable (matchesSpec o image) := by
  unfold matchesSpec
  infer_instance

/-! ### `ocr.rs`: OCR bounds scaling -/

/-- `Layout::get_ocr_bounds` (ocr.rs:161-171): componentwise truncating `u32`
division computes the per-axis factor, then offset and size are scaled by
it. -/
def Layout.get_ocr_bounds (l : Layout) (img_size : Nat × Nat) : URect :=
  let factor : UVec2 := ⟨img_size.1 / l.reference_resolution.x,
                         img_size.2 / l.reference_resolution.y⟩
  let offset : UVec2 := ⟨l.offset.x * factor.x, l.offset.y * factor.y⟩
  let size : UVec2 := ⟨l.size.x * factor.x, l.size.y * factor.y⟩
  ⟨offset, ⟨offset.x + size.x, offset.y + size.y⟩⟩

/-! ### `ocr.rs`: the extraction pass `detect_once`

The OCR engine and the image-crate preprocessing chain are external
collaborators (spec §1); they enter the model as oracle functions. The engine
oracle returns the recognized words in crop-relative coordinates; `detect_once`
shifts them by the crop offset (ocr.rs:218,228) and clusters them
(ocr.rs:240). -/

/-- `URect::width`. -/
def URect.width (r : URect) : Nat := r.max.x - r.min.x

/-- `URect::height`. -/
def URect.height (r : URect) : Nat := r.max.y - r.min.y

/-- `image::imageops::crop_imm(&img, x, y, w, h).to_image()`: the crate clamps
the rectangle to the image (`x' = min(x, W)`, `w' = min(w, W - x')`, same for
y/h) and materializes the cropped pixels. -/
def cropImage (img : RgbaImage) (b : URect) : RgbaImage :=
  let x := Min.min b.min.x img.width
  let y := Min.min b.min.y img.height
  let w := Min.min b.width (img.width - x)
  let h := Min.min b.height (img.height - y)
  ⟨w, h,
   (List.range h).flatMap fun row => (List.range (w * 4)).map fun c =>
     img.data.getD (((y + row) * img.width + x) * 4 + c) 0⟩

/-- The exact error message of ocr.rs:184. -/
def dimError : String := "Image dimensions are 0 in one direction"

/-- Shift a word box by the crop offset (`+ ocr_bounds.min.as_vec2()`). -/
def shiftWord (off : UVec2) (w : Word) : Word :=
  { w with
    bounds := ⟨⟨w.bounds.min.x + off.x, w.bounds.min.y + off.y⟩,
               ⟨w.bounds.max.x + off.x, w.bounds.max.y + off.y⟩⟩ }

/-- `ocr.rs` `OcrResults` (lines 90-96; the `lines` field is carried along by
the code but consumed by no claim, so it is omitted here). -/
structure OcrResults where
  detect_aabb : Aabb2d
  words : List Word
  items : List Item
deriving DecidableEq, Repr

/-- The result assembly of `detect_once` (ocr.rs:206-249): shift the engine's
words to absolute coordinates, cluster them with the constant gap threshold
15, and record the detection region box. -/
def assembleResults (ocr_bounds : URect) (ws : List Word) : OcrResults :=
  let words := ws.map (shiftWord ocr_bounds.min)
  { detect_aabb := ⟨⟨ocr_bounds.min.x, ocr_bounds.min.y⟩,
                    ⟨ocr_bounds.max.x, ocr_bounds.max.y⟩⟩,
    words := words,
    items := detect_columns words 15 }

/-- `ocr.rs` `detect_once` (lines 174-250): crop, fail if either cropped
dimension is zero, otherwise preprocess (oracle `pre`), run the engine
(oracle `engine`) and assemble the results. -/
def detect_once (pre : RgbaImage → RgbaImage)
    (engine : RgbaImage → Except String (List Word))
    (img : RgbaImage) (ocr_bounds : URect) : Except String OcrResults :=
  let processed := cropImage img ocr_bounds
  if processed.width = 0 ∨ processed.height = 0 then
    .error dimError
  else
    match engine (pre processed) with
    | .error e => .error e
    | .ok ws => .ok (assembleResults ocr_bounds ws)

/-! ### `ocr.rs`: the OCR task scheduler (`OcrTask`, `start_ocr_task`,
`get_ocr_result`) -/

deriving instance DecidableEq for Except

/-- The lifecycle of the value stored in the `OcrTask` slot: a spawned task is
`running`, completes to `done r`, and after `block_on(future::poll_once(task))`
has yielded its output once it is `consumed` (polling it again panics in
`async_task`). -/
inductive TaskPhase
  | running
  | done (r : Except String OcrResults)
  | consumed
deriving DecidableEq, Repr

/-- Outcome of one run of the `get_ocr_result` system: the `Result<()>` it
returns, or a panic when an already-consumed task is polled again. -/
inductive PollOutcome
  | ok
  | err (e : String)
  | panicked
deriving DecidableEq, Repr

/-- What one run of `get_ocr_result` produces: the new `OcrTask` slot, the
system's outcome, and the item entities it spawned. -/
structure PollResult where
  newSlot : Option TaskPhase
  outcome : PollOutcome
  spawned : List Item
deriving DecidableEq, Repr

/-- The spawn loop of `get_ocr_result` (ocr.rs:312-323):
`for (idx, item) in items.enumerate() { if idx > 3 { break; } spawn(item) }`. -/
def spawnLoop : Nat → List Item → List Item
  | _, [] => []
  | idx, item :: rest => if idx > 3 then [] else item :: spawnLoop (idx + 1) rest

/-- `ocr.rs` `get_ocr_result` (lines 295-329), as a function of the `OcrTask`
slot. When the polled task has completed with `Err(e)`, the `let mut result =
result?;` at ocr.rs:304 returns from the system with the error BEFORE the
`current_task.0 = None;` at ocr.rs:325 runs, so the slot keeps the
(now consumed) task. Only the success path clears the slot and spawns
items. -/
def get_ocr_result : Option TaskPhase → PollResult
  | some (.done (.ok r)) => ⟨none, .ok, spawnLoop 0 r.items⟩
  | some (.done (.error e)) => ⟨some .consumed, .err e, []⟩
  | some .consumed => ⟨some .consumed, .panicked, []⟩
  | slot => ⟨slot, .ok, []⟩

/-- `ocr.rs` `start_ocr_task` (lines 256-289), as a function of the `OcrTask`
slot: the body runs only when the slot is `None` and a frame is available
(`current_task.0.is_none() && let Some(img) = img.get_latest_rgba()`); it then
spawns a task only when a layout matches the frame. -/
def start_ocr_task (frame : Option RgbaImage) (layouts : List LayoutOption)
    (slot : Option TaskPhase) : Option TaskPhase :=
  match slot with
  | some t => some t
  | none =>
    match frame with
    | none => none
    | some img =>
      match find_matching_layout layouts img with
      | none => none
      | some _layout => some TaskPhase.running

/-- Scheduler state: the `OcrTask` slot plus a ghost count of extraction
tasks currently in flight (spawned and not yet completed). -/
structure SchedState where
  slot : Option TaskPhase
  inflight : Nat
deriving DecidableEq, Repr

/-- Events acting on the scheduler: a trigger (the `OnEnter(Ocr)` run of
`start_ocr_task`, carrying the frame and configured layouts it sees), the
background task completing with a result, and a run of the polling system
`get_ocr_result`. -/
inductive SchedEvent
  | trigger (frame : Option RgbaImage) (layouts : List LayoutOption)
  | taskCompletes (r : Except String OcrResults)
  | poll
deriving DecidableEq, Repr

/-- One scheduler step. The ghost `inflight` counter is incremented exactly
when a trigger spawns and decremented exactly when the running task
completes. -/
def schedStep (s : SchedState) : SchedEvent → SchedState
  | .trigger frame layouts =>
    let slot := start_ocr_task frame layouts s.slot
    ⟨slot, if s.slot.isNone && slot.isSome then s.inflight + 1 else s.inflight⟩
  | .taskCompletes r =>
    match s.slot with
    | some .running => ⟨some (.done r), s.inflight - 1⟩
    | _ => s
  | .poll => ⟨(get_ocr_result s.slot).newSlot, s.inflight⟩

/-- Initial scheduler state: `OcrTask` slot `None` (``#[derive(Default)]``),
nothing in flight. -/
def schedInit : SchedState := ⟨none, 0⟩

/-- Run the scheduler over a sequence of events. -/
def schedRun (evs : List SchedEvent) : SchedState := evs.foldl schedStep schedInit

/-! ### Concrete configuration values (from `Config::default`, config.rs:208-232) -/

/-- The default `Layout` of `Config::default` (config.rs:222-228); the
vitruvian theme color `#bea966` is bytes (190, 169, 102) over 255 with full
alpha. -/
def defaultLayout : Layout :=
  ⟨⟨478, 411⟩, ⟨965, 49⟩, ⟨1920, 1080⟩,
   ⟨190 / 255, 169 / 255, 102 / 255, 1⟩, 90⟩

/-- The default `LayoutOption` of `Config::default` (config.rs:219-229):
aspect ratio 16:9, no pixel checks. -/
def defaultOption : LayoutOption := ⟨(16, 9), [], defaultLayout⟩

/-- A concrete all-black 16x9 RGBA frame. -/
def frame16x9 : RgbaImage := ⟨16, 9, List.replicate (16 * 9 * 4) 0⟩

/-! ### Helper lemmas -/

theorem drainChannel_eq_nil {α : Type} (q : List α) : drainChannel q = [] := by
  induction q with
  | nil => rfl
  | cons v rest ih => simpa [drainChannel] using ih

theorem spawnLoop_eq_take (l : List Item) : ∀ idx, spawnLoop idx l = l.take (4 - idx) := by
  induction l with
  | nil => intro idx; simp [spawnLoop]
  | cons item rest ih =>
    intro idx
    by_cases h : idx > 3
    · have h4 : 4 - idx = 0 := by omega
      simp [spawnLoop, h, h4]
    · have h4 : 4 - idx = (4 - (idx + 1)) + 1 := by omega
      simp [spawnLoop, h, h4, ih]

/-! ### Claim theorems -/

/-- C1: the claim says a failed OCR result, once polled, clears the `OcrTask`
slot to `None` so a subsequent trigger can start a new extraction. The code
does the opposite: `result?` (ocr.rs:304) returns from `get_ocr_result` before
`current_task.0 = None` (ocr.rs:325) executes, so after polling a failed task
the slot still holds the consumed task, a subsequent trigger is a no-op, and
the scheduler stays stuck (while the same trigger from an empty slot would
have spawned a task). -/
theorem c1_failed_poll_leaves_slot_occupied :
    (get_ocr_result (some (.done (.error dimError)))).newSlot = some .consumed ∧
    (get_ocr_result (some (.done (.error dimError)))).newSlot ≠ none ∧
    start_ocr_task (some frame16x9) [defaultOption]
      (get_ocr_result (some (.done (.error dimError)))).newSlot = some .consumed ∧
    start_ocr_task (some frame16x9) [defaultOption] none = some .running := by
  refine ⟨rfl, by simp [get_ocr_result], rfl, by decide⟩

/-- C6: when each actual dimension is a positive integer multiple of the
corresponding reference-resolution dimension, `Layout::get_ocr_bounds` scales
offset and size componentwise by the per-axis factor, and at the reference
resolution itself the bounds are exactly the configured offset and size,
unscaled. -/
theorem c6_ocr_bounds_scaling (l : Layout) (w h kx ky : Nat)
    (hrx : 0 < l.reference_resolution.x) (hry : 0 < l.reference_resolution.y)
    (hkx : 0 < kx) (hky : 0 < ky)
    (hw : w = kx * l.reference_resolution.x) (hh : h = ky * l.reference_resolution.y) :
    l.get_ocr_bounds (w, h) =
      ⟨⟨l.offset.x * kx, l.offset.y * ky⟩,
       ⟨l.offset.x * kx + l.size.x * kx, l.offset.y * ky + l.size.y * ky⟩⟩ ∧
    l.get_ocr_bounds (l.reference_resolution.x, l.reference_resolution.y) =
      ⟨⟨l.offset.x, l.offset.y⟩, ⟨l.offset.x + l.size.x, l.offset.y + l.size.y⟩⟩ := by
  constructor
  · subst hw hh
    simp [Layout.get_ocr_bounds, Nat.mul_div_cancel, hrx, hry]
  · have h1 : l.reference_resolution.x / l.reference_resolution.x = 1 :=
      Nat.div_self hrx
    have h2 : l.reference_resolution.y / l.reference_resolution.y = 1 :=
      Nat.div_self hry
    simp [Layout.get_ocr_bounds, h1, h2]

/-- Witness for C6 at the spec's end-to-end scenario: frame 1920x1080 against
the default layout authored at reference resolution 1920x1080 (factor 1 on
both axes), bounds exactly offset (478,411) to offset+size (1443,460). -/
theorem c6_ocr_bounds_scaling_witness :
    0 < defaultLayout.reference_resolution.x ∧
    0 < defaultLayout.reference_resolution.y ∧
    (0 : Nat) < 1 ∧ 1920 = 1 * defaultLayout.reference_resolution.x ∧
    1080 = 1 * defaultLayout.reference_resolution.y ∧
    defaultLayout.get_ocr_bounds (1920, 1080) = ⟨⟨478, 411⟩, ⟨1443, 460⟩⟩ := by
  refine ⟨by decide, by decide, by decide, by decide, by decide, ?_⟩
  have h := (c6_ocr_bounds_scaling defaultLayout 1920 1080 1 1
    (by decide) (by decide) (by decide) (by decide) (by decide) (by decide)).1
  simpa [defaultLayout] using h

/-- C7: publishing `v1` then `v2` into the single-slot frame channel with the
producer's drain-then-send discipline leaves exactly `v2` retrievable: the
next `try_recv` returns `v2` and empties the channel, and a subsequent
`try_recv` returns nothing. -/
theorem c7_channel_freshness {α : Type} (q : List α) (v1 v2 : α) :
    tryRecv (publish (publish q v1) v2) = (some v2, []) ∧
    tryRecv (tryRecv (publish (publish q v1) v2)).2 = (none, []) := by
  simp [publish, tryRecv, drainChannel_eq_nil]

/-- C9: on a completed successful OCR result, the consumer spawns exactly the
first four clustered items (`if idx > 3 break` at ocr.rs:313): the spawned
list is `items.take 4`, hence never longer than 4, and items at index 4 and
beyond are dropped even though `OcrResults.items` may hold more. -/
theorem c9_at_most_four_items (r : OcrResults) :
    (get_ocr_result (some (.done (.ok r)))).spawned = r.items.take 4 ∧
    (get_ocr_result (some (.done (.ok r)))).spawned.length ≤ 4 := by
  have h : (get_ocr_result (some (.done (.ok r)))).spawned = r.items.take 4 := by
    simp [get_ocr_result, spawnLoop_eq_take]
  refine ⟨h, ?_⟩
  rw [h, List.length_take]
  omega

/-- C10: whenever the stored buffer has at least 4 bytes and the stored format
is one of Bgra, BGRx, Rgba, RGBx, `get_latest_rgba` moves the frame bytes out
of the resource (leaving it empty) regardless of whether the conversion
succeeds, leaves the metadata unchanged, and an immediately following call
returns nothing. -/
theorem c10_get_latest_rgba_moves_bytes (s : LatestImage)
    (hlen : 4 ≤ s.bytes.length)
    (hfmt : s.meta.format = .Bgra ∨ s.meta.format = .BGRx ∨
            s.meta.format = .Rgba ∨ s.meta.format = .RGBx) :
    (get_latest_rgba s).2.bytes = [] ∧
    (get_latest_rgba s).2.meta = s.meta ∧
    (get_latest_rgba (get_latest_rgba s).2).1 = none := by
  have hnot : ¬ s.bytes.length < 4 := by omega
  rcases hfmt with h | h | h | h <;>
    simp [get_latest_rgba, hnot, h]

/-- Witness for C10: a 5-byte Bgra buffer with 2x2 metadata (so the length
does not match `width*height*4` and the conversion returns nothing): the bytes
are still moved out, the metadata is unchanged, and the next call yields
nothing. -/
theorem c10_get_latest_rgba_moves_bytes_witness :
    4 ≤ (LatestImage.mk [1, 2, 3, 4, 5] ⟨2, 2, .Bgra⟩).bytes.length ∧
    ((LatestImage.mk [1, 2, 3, 4, 5] ⟨2, 2, .Bgra⟩).meta.format = .Bgra ∨
     (LatestImage.mk [1, 2, 3, 4, 5] ⟨2, 2, .Bgra⟩).meta.format = .BGRx ∨
     (LatestImage.mk [1, 2, 3, 4, 5] ⟨2, 2, .Bgra⟩).meta.format = .Rgba ∨
     (LatestImage.mk [1, 2, 3, 4, 5] ⟨2, 2, .Bgra⟩).meta.format = .RGBx) ∧
    (get_latest_rgba (LatestImage.mk [1, 2, 3, 4, 5] ⟨2, 2, .Bgra⟩)).1 = none ∧
    (get_latest_rgba (LatestImage.mk [1, 2, 3, 4, 5] ⟨2, 2, .Bgra⟩)).2.bytes = [] ∧
    (get_latest_rgba (LatestImage.mk [1, 2, 3, 4, 5] ⟨2, 2, .Bgra⟩)).2.meta =
      (LatestImage.mk [1, 2, 3, 4, 5] ⟨2, 2, .Bgra⟩).meta ∧
    (get_latest_rgba (get_latest_rgba (LatestImage.mk [1, 2, 3, 4, 5] ⟨2, 2, .Bgra⟩)).2).1 =
      none := by
  have h := c10_get_latest_rgba_moves_bytes (LatestImage.mk [1, 2, 3, 4, 5] ⟨2, 2, .Bgra⟩)
    (by decide) (Or.inl rfl)
  exact ⟨by decide, Or.inl rfl, by decide, h.1, h.2.1, h.2.2⟩

theorem byte32_of_word (b g r a : Nat)
    (hb : b < 256) (hg : g < 256) (hr : r < 256) (ha : a < 256) :
    byte32 (((b * 256 + g) * 256 + r) * 256 + a) 0 = a ∧
    byte32 (((b * 256 + g) * 256 + r) * 256 + a) 1 = r ∧
    byte32 (((b * 256 + g) * 256 + r) * 256 + a) 2 = g ∧
    byte32 (((b * 256 + g) * 256 + r) * 256 + a) 3 = b := by
  refine ⟨?_, ?_, ?_, ?_⟩ <;> · simp only [byte32]; norm_num; omega

theorem bgraChunkToRgba_eq (b g r a : Nat)
    (hb : b < 256) (hg : g < 256) (hr : r < 256) (ha : a < 256) :
    bgraChunkToRgba b g r a = [r, g, b, a] := by
  obtain ⟨h0, h1, h2, h3⟩ := byte32_of_word b g r a hb hg hr ha
  have hswap : u32_swap_bytes (u32_from_be_bytes b g r a) =
      ((a * 256 + r) * 256 + g) * 256 + b := by
    simp only [u32_swap_bytes, u32_from_be_bytes, h0, h1, h2, h3]
    ring
  have hrot : u32_rotate_left8 (((a * 256 + r) * 256 + g) * 256 + b) =
      ((r * 256 + g) * 256 + b) * 256 + a := by
    simp only [u32_rotate_left8]
    norm_num
    omega
  obtain ⟨g0, g1, g2, g3⟩ := byte32_of_word r g b a hr hg hb ha
  simp only [bgraChunkToRgba, hswap, hrot, u32_to_be_bytes, g0, g1, g2, g3]

theorem mapChunks4_eq_spec :
    ∀ l : List Nat, (∀ x ∈ l, x < 256) → mapChunks4 l = bgraSpecMap l
  | [], _ => rfl
  | [_], _ => rfl
  | [_, _], _ => rfl
  | [_, _, _], _ => rfl
  | b :: g :: r :: a :: rest, h => by
    have hrest : ∀ x ∈ rest, x < 256 := fun x hx => h x (by simp [hx])
    have hchunk := bgraChunkToRgba_eq b g r a
      (h b (by simp)) (h g (by simp)) (h r (by simp)) (h a (by simp))
    show bgraChunkToRgba b g r a ++ mapChunks4 rest = r :: g :: b :: a :: bgraSpecMap rest
    rw [hchunk, mapChunks4_eq_spec rest hrest]
    rfl

/-- C5: for a BGRA/BGRx buffer of `width*height` 4-byte pixels (byte values
below 256, as produced by a real byte buffer), `from_raw_bgra` succeeds and
maps every pixel's bytes `[B,G,R,A]` to `[R,G,B,A]` via the
big-endian-read / byte-swap / rotate-left-8 / big-endian-write sequence; in
particular (B=10,G=20,R=30,A=40) becomes (R=30,G=20,B=10,A=40) with alpha
unchanged. -/
theorem c5_bgra_conversion :
    (∀ b g r a : Nat, b < 256 → g < 256 → r < 256 → a < 256 →
      bgraChunkToRgba b g r a = [r, g, b, a]) ∧
    (∀ (width height : Nat) (container : List Nat),
      container.length = width * height * 4 → (∀ x ∈ container, x < 256) →
      from_raw_bgra width height container =
        some ⟨width, height, bgraSpecMap container⟩) ∧
    bgraChunkToRgba 10 20 30 40 = [30, 20, 10, 40] := by
  refine ⟨bgraChunkToRgba_eq, ?_, by decide⟩
  intro width height container hlen hbytes
  have hle : width * height * 4 ≤ container.length := by omega
  simp [from_raw_bgra, rgbaImageFromRaw, hle, mapChunks4_eq_spec container hbytes]

/-- Witness for C5 at the spec's round-trip pixel (B=10,G=20,R=30,A=40), both
per-chunk and as a full 1x1 BGRA frame. -/
theorem c5_bgra_conversion_witness :
    (10 < 256 ∧ 20 < 256 ∧ 30 < 256 ∧ 40 < 256) ∧
    bgraChunkToRgba 10 20 30 40 = [30, 20, 10, 40] ∧
    ([10, 20, 30, 40] : List Nat).length = 1 * 1 * 4 ∧
    (∀ x ∈ ([10, 20, 30, 40] : List Nat), x < 256) ∧
    from_raw_bgra 1 1 [10, 20, 30, 40] = some ⟨1, 1, [30, 20, 10, 40]⟩ := by
  refine ⟨by decide, c5_bgra_conversion.1 10 20 30 40 (by decide) (by decide)
    (by decide) (by decide), by decide, by decide, ?_⟩
  have h := c5_bgra_conversion.2.1 1 1 [10, 20, 30, 40] (by decide) (by decide)
  simpa [bgraSpecMap] using h

theorem detect_columns_eq_spec (words : List Word) (gap_threshold : ℚ) :
    detect_columns words gap_threshold = cluster_spec words gap_threshold := by
  unfold detect_columns cluster_spec sortByMinX columnBoundaries columnIndex
  by_cases h : words.isEmpty
  · simp [h]
  · simp only [h, if_false]
    rw [List.filterMap_map]
    refine congrFun (congrArg List.filterMap (funext fun j => ?_)) _
    simp only [Function.comp_apply, gt_iff_lt]

/-- C3: `detect_columns` implements the specified 1-D gap segmentation
(`cluster_spec`, written from the spec wording) for every word list and gap
threshold; on words at x-ranges [0,10],[12,20],[100,110] with threshold 15 it
yields exactly two items — the first two words merged (texts joined by a
single space, boxes merged), the third alone, left to right; and the empty
word list yields the empty item list. -/
theorem c3_column_clustering :
    (∀ (words : List Word) (gap_threshold : ℚ),
      detect_columns words gap_threshold = cluster_spec words gap_threshold) ∧
    detect_columns
      [⟨"A", ⟨⟨0, 0⟩, ⟨10, 1⟩⟩⟩, ⟨"B", ⟨⟨12, 0⟩, ⟨20, 1⟩⟩⟩, ⟨"C", ⟨⟨100, 0⟩, ⟨110, 1⟩⟩⟩] 15 =
      [⟨"A B", ⟨⟨0, 0⟩, ⟨20, 1⟩⟩⟩, ⟨"C", ⟨⟨100, 0⟩, ⟨110, 1⟩⟩⟩] ∧
    (∀ gap_threshold : ℚ, detect_columns [] gap_threshold = []) := by
  refine ⟨detect_columns_eq_spec, ?_, fun _ => rfl⟩
  have hsort : sortByMinX
      [⟨"A", ⟨⟨0, 0⟩, ⟨10, 1⟩⟩⟩, ⟨"B", ⟨⟨12, 0⟩, ⟨20, 1⟩⟩⟩, ⟨"C", ⟨⟨100, 0⟩, ⟨110, 1⟩⟩⟩] =
      [⟨"A", ⟨⟨0, 0⟩, ⟨10, 1⟩⟩⟩, ⟨"B", ⟨⟨12, 0⟩, ⟨20, 1⟩⟩⟩, ⟨"C", ⟨⟨100, 0⟩, ⟨110, 1⟩⟩⟩] := by
    norm_num [sortByMinX, List.insertionSort, List.orderedInsert]
  have hbound : columnBoundaries
      [⟨"A", ⟨⟨0, 0⟩, ⟨10, 1⟩⟩⟩, ⟨"B", ⟨⟨12, 0⟩, ⟨20, 1⟩⟩⟩, ⟨"C", ⟨⟨100, 0⟩, ⟨110, 1⟩⟩⟩] 15 =
      [60] := by
    norm_num [columnBoundaries, List.filterMap_cons]
  have hc1 : columnIndex [60] ⟨"A", ⟨⟨0, 0⟩, ⟨10, 1⟩⟩⟩ = 0 := by
    norm_num [columnIndex, Aabb2d.center]
  have hc2 : columnIndex [60] ⟨"B", ⟨⟨12, 0⟩, ⟨20, 1⟩⟩⟩ = 0 := by
    norm_num [columnIndex, Aabb2d.center]
  have hc3 : columnIndex [60] ⟨"C", ⟨⟨100, 0⟩, ⟨110, 1⟩⟩⟩ = 1 := by
    norm_num [columnIndex, Aabb2d.center]
  simp only [detect_columns, List.isEmpty_cons, Bool.false_eq_true, if_false, hsort, hbound,
    hc1, hc2, hc3, List.length_cons, List.length_nil]
  norm_num [List.range_succ, List.filter, hc1, hc2, hc3, Aabb2d.merge, String.intercalate,
    List.filterMap_cons, min_def, max_def]
  exact ⟨rfl, rfl⟩

theorem matches_iff (o : LayoutOption) (image : RgbaImage) :
    o.matches image = true ↔ matchesSpec o image := by
  unfold LayoutOption.matches LayoutOption.aspect_ratio_matches
    LayoutOption.verify_pixel_checks PixelCheck.matches_pixel matchesSpec
  simp only [Bool.and_eq_true, List.all_eq_true, decide_eq_true_eq]
  constructor
  · rintro ⟨ha, hc⟩
    refine ⟨ha, fun check hck => ?_⟩
    have h1 := hc check hck
    by_cases hob : check.x ≥ image.width ∨ check.y ≥ image.height
    · rw [if_pos hob] at h1
      exact absurd h1 (by simp)
    · rw [if_neg hob] at h1
      push_neg at hob
      refine ⟨hob.1, hob.2, ?_⟩
      by_cases ht : check.tolerance = 0
      · rw [if_pos ht] at h1 ⊢
        exact of_decide_eq_true h1
      · rw [if_neg ht] at h1 ⊢
        exact of_decide_eq_true h1
  · rintro ⟨ha, hc⟩
    refine ⟨ha, fun check hck => ?_⟩
    obtain ⟨hx, hy, hcond⟩ := hc check hck
    rw [if_neg (by omega : ¬(check.x ≥ image.width ∨ check.y ≥ image.height))]
    by_cases ht : check.tolerance = 0
    · rw [if_pos ht]
      rw [if_pos ht] at hcond
      exact decide_eq_true hcond
    · rw [if_neg ht]
      rw [if_neg ht] at hcond
      exact decide_eq_true hcond

theorem matches_eq_decide (o : LayoutOption) (image : RgbaImage) :
    o.matches image = decide (matchesSpec o image) := by
  by_cases h : matchesSpec o image
  · simp [h, (matches_iff o image).mpr h]
  · have hm : o.matches image ≠ true := fun hmm => h ((matches_iff o image).mp hmm)
    simp [h, Bool.eq_false_iff.mpr hm]

/-- C4: layout selection returns the layout of the first option, in configured
order, that matches, and nothing when no option matches; an option matches iff
the exact integer cross-multiplication on the aspect ratio holds (true for
1920x1080 against 16:9, false for 1920x1200) and every pixel check passes,
where tolerance 0 means exact color equality, positive tolerance means
Euclidean color distance at most the tolerance, and an out-of-bounds check
coordinate means the check fails rather than erroring
(`matchesSpec` is the spec-side predicate). -/
theorem c4_layout_selection :
    (∀ (layouts : List LayoutOption) (image : RgbaImage),
      find_matching_layout layouts image =
        ((layouts.find? fun o => decide (matchesSpec o image)).map fun o => o.config)) ∧
    (∀ (o : LayoutOption) (image : RgbaImage),
      o.matches image = true ↔ matchesSpec o image) ∧
    (∀ (layouts : List LayoutOption) (image : RgbaImage),
      (∀ o ∈ layouts, ¬ matchesSpec o image) →
        find_matching_layout layouts image = none) ∧
    defaultOption.aspect_ratio_matches 1920 1080 = true ∧
    defaultOption.aspect_ratio_matches 1920 1200 = false := by
  have hfind : ∀ (layouts : List LayoutOption) (image : RgbaImage),
      find_matching_layout layouts image =
        ((layouts.find? fun o => decide (matchesSpec o image)).map fun o => o.config) := by
    intro layouts image
    have hp : (fun o : LayoutOption => o.matches image) =
        fun o => decide (matchesSpec o image) :=
      funext fun o => matches_eq_decide o image
    unfold find_matching_layout
    rw [hp]
  refine ⟨hfind, matches_iff, ?_, by decide, by decide⟩
  intro layouts image hnone
  rw [hfind layouts image]
  have : layouts.find? (fun o => decide (matchesSpec o image)) = none := by
    rw [List.find?_eq_none]
    intro o ho
    simpa using hnone o ho
  rw [this]
  rfl

/-- Witness for C4: the default 16:9 option against a 10x10 frame (aspect
cross-multiplication fails) selects no layout. -/
theorem c4_layout_selection_witness :
    (∀ o ∈ [defaultOption], ¬ matchesSpec o ⟨10, 10, []⟩) ∧
    find_matching_layout [defaultOption] ⟨10, 10, []⟩ = none := by
  refine ⟨by decide, c4_layout_selection.2.2.1 [defaultOption] ⟨10, 10, []⟩ (by decide)⟩

/-- The scheduler's inductive invariant: the ghost in-flight count is 1
exactly while the slot holds a running task. -/
def goodState (s : SchedState) : Prop :=
  s.inflight = if s.slot = some TaskPhase.running then 1 else 0

theorem schedStep_good {s : SchedState} (e : SchedEvent) (h : goodState s) :
    goodState (schedStep s e) := by
  cases e with
  | trigger frame layouts =>
    unfold goodState at h ⊢
    cases hs : s.slot with
    | some t =>
      simp only [hs] at h
      simp [schedStep, start_ocr_task, hs, h]
    | none =>
      simp only [hs, reduceCtorEq, if_neg] at h
      cases frame with
      | none => simp [schedStep, start_ocr_task, hs, h]
      | some img =>
        cases hf : find_matching_layout layouts img with
        | none => simp [schedStep, start_ocr_task, hs, hf, h]
        | some l => simp [schedStep, start_ocr_task, hs, hf, h]
  | taskCompletes r =>
    unfold goodState at h ⊢
    cases hs : s.slot with
    | none => simp [schedStep, hs] at h ⊢; exact h
    | some t =>
      cases t with
      | running =>
        simp only [hs, if_pos] at h
        simp [schedStep, hs, h]
      | done r2 => simp [schedStep, hs] at h ⊢; exact h
      | consumed => simp [schedStep, hs] at h ⊢; exact h
  | poll =>
    unfold goodState at h ⊢
    cases hs : s.slot with
    | none => simp [schedStep, get_ocr_result, hs] at h ⊢; exact h
    | some t =>
      cases t with
      | running => simp [schedStep, get_ocr_result, hs] at h ⊢; exact h
      | consumed => simp [schedStep, get_ocr_result, hs] at h ⊢; exact h
      | done r =>
        cases r with
        | ok v => simp [schedStep, get_ocr_result, hs] at h ⊢; exact h
        | error e => simp [schedStep, get_ocr_result, hs] at h ⊢; exact h

theorem foldl_schedStep_good :
    ∀ (evs : List SchedEvent) (s : SchedState),
      goodState s → goodState (evs.foldl schedStep s)
  | [], _, h => h
  | e :: evs, s, h => foldl_schedStep_good evs _ (schedStep_good e h)

/-- C2: over every sequence of events, at most one extraction task is in
flight (the ghost count `inflight`, incremented on each spawn and decremented
on each completion, never exceeds 1); a trigger arriving while the slot is
occupied leaves the scheduler state entirely unchanged (and `start_ocr_task`
spawns only into an empty slot); and the slot returns to `None` only at the
poll step that consumes a completed successful result. -/
theorem c2_single_inflight_task :
    (∀ evs : List SchedEvent, (schedRun evs).inflight ≤ 1) ∧
    (∀ (s : SchedState) (frame : Option RgbaImage) (layouts : List LayoutOption),
      s.slot ≠ none → schedStep s (.trigger frame layouts) = s) ∧
    (∀ (frame : Option RgbaImage) (layouts : List LayoutOption) (t : TaskPhase),
      start_ocr_task frame layouts (some t) = some t) ∧
    (∀ (s : SchedState) (e : SchedEvent),
      s.slot ≠ none → (schedStep s e).slot = none →
      e = SchedEvent.poll ∧ ∃ r, s.slot = some (.done (.ok r))) := by
  refine ⟨?_, ?_, fun _ _ _ => rfl, ?_⟩
  · intro evs
    have hinit : goodState schedInit := by simp [goodState, schedInit]
    have h := foldl_schedStep_good evs schedInit hinit
    unfold goodState at h
    rw [schedRun, h]
    split <;> omega
  · rintro ⟨slot, inflight⟩ frame layouts hs
    cases slot with
    | none => exact absurd rfl hs
    | some t => simp [schedStep, start_ocr_task]
  · intro s e hs hnone
    cases e with
    | trigger frame layouts =>
      cases hs' : s.slot with
      | none => exact absurd hs' hs
      | some t => simp [schedStep, start_ocr_task, hs'] at hnone
    | taskCompletes r =>
      cases hs' : s.slot with
      | none => exact absurd hs' hs
      | some t =>
        cases t with
        | running => simp [schedStep, hs'] at hnone
        | done r2 => simp [schedStep, hs'] at hnone
        | consumed => simp [schedStep, hs'] at hnone
    | poll =>
      cases hs' : s.slot with
      | none => exact absurd hs' hs
      | some t =>
        cases t with
        | running => simp [schedStep, get_ocr_result, hs'] at hnone
        | consumed => simp [schedStep, get_ocr_result, hs'] at hnone
        | done r =>
          cases r with
          | error e2 => simp [schedStep, get_ocr_result, hs'] at hnone
          | ok v => exact ⟨rfl, v, rfl⟩

/-- Witness for C2: a slot holding a completed successful task is cleared by
exactly the poll step; a trigger on an occupied slot is a no-op; the in-flight
bound after a concrete spawning trigger. -/
theorem c2_single_inflight_task_witness :
    ((SchedState.mk (some (.done (.ok ⟨⟨⟨0, 0⟩, ⟨0, 0⟩⟩, [], []⟩))) 0).slot ≠ none ∧
     (schedStep (SchedState.mk (some (.done (.ok ⟨⟨⟨0, 0⟩, ⟨0, 0⟩⟩, [], []⟩))) 0)
        SchedEvent.poll).slot = none ∧
     (SchedEvent.poll = SchedEvent.poll ∧
      ∃ r, (SchedState.mk (some (.done (.ok ⟨⟨⟨0, 0⟩, ⟨0, 0⟩⟩, [], []⟩))) 0).slot =
        some (.done (.ok r)))) ∧
    ((SchedState.mk (some .running) 1).slot ≠ none ∧
     schedStep (SchedState.mk (some .running) 1) (.trigger none []) =
       SchedState.mk (some .running) 1) ∧
    (schedRun [SchedEvent.trigger (some frame16x9) [defaultOption]]).inflight ≤ 1 := by
  refine ⟨⟨by simp, rfl, ?_⟩, ⟨by simp, ?_⟩, c2_single_inflight_task.1 _⟩
  · exact c2_single_inflight_task.2.2.2 _ SchedEvent.poll (by simp) rfl
  · exact c2_single_inflight_task.2.1 _ none [] (by simp)

/-- C8: `detect_once` fails with the explicit dimension error, before any OCR
engine call (the result is the same for every engine oracle), exactly when the
cropped region has zero width or zero height; with both cropped dimensions
nonzero the outcome is entirely determined by the engine call, so the pass
does not fail on this condition. -/
theorem c8_degenerate_crop_error (pre : RgbaImage → RgbaImage)
    (engine : RgbaImage → Except String (List Word)) (img : RgbaImage) (b : URect) :
    ((cropImage img b).width = 0 ∨ (cropImage img b).height = 0 →
      detect_once pre engine img b = .error dimError ∧
      ∀ engine2 : RgbaImage → Except String (List Word),
        detect_once pre engine2 img b = .error dimError) ∧
    ((cropImage img b).width ≠ 0 → (cropImage img b).height ≠ 0 →
      detect_once pre engine img b =
        match engine (pre (cropImage img b)) with
        | .error e => .error e
        | .ok ws => .ok (assembleResults b ws)) := by
  constructor
  · intro h
    constructor
    · simp only [detect_once]
      rw [if_pos h]
    · intro engine2
      simp only [detect_once]
      rw [if_pos h]
  · intro hw hh
    simp only [detect_once]
    rw [if_neg (not_or.mpr ⟨hw, hh⟩)]

/-- Witness for C8: a zero-area bounds rectangle on a 4x4 frame yields the
dimension error; a 2x2 crop with a trivially succeeding engine oracle yields
that engine's assembled result. -/
theorem c8_degenerate_crop_error_witness :
    ((cropImage ⟨4, 4, []⟩ ⟨⟨0, 0⟩, ⟨0, 0⟩⟩).width = 0 ∨
     (cropImage ⟨4, 4, []⟩ ⟨⟨0, 0⟩, ⟨0, 0⟩⟩).height = 0) ∧
    detect_once (fun i => i) (fun _ => .ok []) ⟨4, 4, []⟩ ⟨⟨0, 0⟩, ⟨0, 0⟩⟩ =
      .error dimError ∧
    (cropImage ⟨4, 4, []⟩ ⟨⟨0, 0⟩, ⟨2, 2⟩⟩).width ≠ 0 ∧
    (cropImage ⟨4, 4, []⟩ ⟨⟨0, 0⟩, ⟨2, 2⟩⟩).height ≠ 0 ∧
    detect_once (fun i => i) (fun _ => .ok []) ⟨4, 4, []⟩ ⟨⟨0, 0⟩, ⟨2, 2⟩⟩ =
      .ok (assembleResults ⟨⟨0, 0⟩, ⟨2, 2⟩⟩ []) := by
  refine ⟨Or.inl (by decide), ?_, by decide, by decide, ?_⟩
  · exact ((c8_degenerate_crop_error (fun i => i) (fun _ => .ok []) ⟨4, 4, []⟩
      ⟨⟨0, 0⟩, ⟨0, 0⟩⟩).1 (Or.inl (by decide))).1
  · exact ((c8_degenerate_crop_error (fun i => i) (fun _ => .ok []) ⟨4, 4, []⟩
      ⟨⟨0, 0⟩, ⟨2, 2⟩⟩).2 (by decide) (by decide)).trans rfl

end WfOverlay
